import Mathlib

/-!
# Verification of the optikon edge DNS plugin (optikon/vagrant sources)

Shallow embedding of the query-resolution engine of the `edge` CoreDNS
plugin found under `optikon-dns/plugin/edge/` (edge.go, connect.go,
lookup.go), together with theorems settling the frozen claims about it.

Conventions of the embedding:
* Go machine integers (uint32, uint16) are `Nat` with explicit `% 2^w`
  at the points where the code can overflow or truncate.
* Fallible operations (a Go runtime panic such as division by zero)
  return `Option`, `none` marking the panic.
* Network I/O performed by `Proxy.connect` is abstracted by an oracle
  `oracle : Nat → ConnectRes` handing out, per call, the `(reply, error)`
  pair that the call to `connect` produced; randomness (`rand.Perm`,
  coin flips) is passed in as explicit parameters.
* Components of the repository whose sources are not present (the
  `ConcurrentServiceTable`, the `Set` type, `Proxy.Down`, the location
  record codec, `request.Request` helpers, the `truncated` helper) are
  either modelled from the spec (marked `Modelled from the spec:`) or
  abstracted as parameters that theorems quantify over.
-/

/-- Geographic coordinate in decimal degrees (lat, lon); the Go `Point`
struct uses float64, idealised here as rationals.  The program only ever
compares distances, so the claims are stated for an arbitrary distance
function `dist : Point → Point → ℚ`. -/
structure Point where
  lat : ℚ
  lon : ℚ
deriving DecidableEq

/-- A net.IP value, as its byte slice (nil IP is `[]`). -/
abbrev IP := List Nat

/-- The 12-byte prefix of an IPv4-mapped IPv6 address (net.v4InV6Prefix). -/
def v4MappedBytes : IP := [0, 0, 0, 0, 0, 0, 0, 0, 0, 0, 255, 255]

/-- Whether a 16-byte IP is in IPv4-mapped form (net.IP.To4's second case). -/
def isV4Mapped (ip : IP) : Bool :=
  decide (ip.length = 16) && (ip.take 10).all (fun b => b == 0)
    && decide (ip.getD 10 0 = 255) && decide (ip.getD 11 0 = 255)

/-- net.IP.To4: the 4-byte form of an IP, or nil if it is not an IPv4
address. -/
def ipTo4 (ip : IP) : IP :=
  if ip.length = 4 then ip
  else if isV4Mapped ip then ip.drop 12
  else []

/-- `Site` from edge.go: a pair of an IP and geo coordinates. -/
structure Site where
  ip : IP
  coords : Point
deriving DecidableEq

/-- One upstream proxy; only the identity and the failure counter
(`fails`, a uint32 in Go) matter to the claims. -/
structure Proxy where
  id : Nat
  fails : Nat
deriving DecidableEq

def dfltProxy : Proxy := ⟨0, 0⟩

def dfltSite : Site := ⟨[], ⟨0, 0⟩⟩

def dfltPoint : Point := ⟨0, 0⟩

/-- A DNS resource record in the answer section as synthesised by
`writeAuthoritativeResponse` (A or AAAA, with the header name and class). -/
inductive RR
  | A (name : String) (cls : Nat) (addr : IP)
  | AAAA (name : String) (cls : Nat) (addr : IP)
deriving DecidableEq

/-- The address carried by a synthesised answer record. -/
def rrAddr : RR → IP
  | .A _ _ a => a
  | .AAAA _ _ a => a

/-- The fields of a dns.Msg that the engine reads or writes.  The LOC
marker in the additional section is abstracted as `loc : Option Point`
(`extractLocationRecord` / `insertLocationRecord` operate on it). -/
structure DnsMsg where
  qname : String
  qtype : Nat
  qcls : Nat
  response : Bool
  opcode : Nat
  recursionDesired : Bool
  authoritative : Bool
  compress : Bool
  rcode : Nat
  answer : List RR
  loc : Option Point
deriving DecidableEq

/-- A freshly allocated dns.Msg (new(dns.Msg)): all fields zero. -/
def emptyMsg : DnsMsg :=
  { qname := "", qtype := 0, qcls := 0, response := false, opcode := 0,
    recursionDesired := false, authoritative := false, compress := false,
    rcode := 0, answer := [], loc := none }

/-- The client transport family reported by request.Request.Family():
1 for IPv4, 2 for IPv6 (it never returns anything else). -/
inductive Fam
  | ipv4
  | ipv6
deriving DecidableEq

/-- The per-request state (request.Request): the request message, the
client's address family and its advertised buffer size. -/
structure ReqState where
  req : DnsMsg
  family : Fam
  size : Nat
deriving DecidableEq

/-- Transport errors surfaced by a connect attempt; `io.EOF` is the one
error the ServeDNS loop distinguishes. -/
inductive Err
  | eof
  | other (code : Nat)
deriving DecidableEq

/-- The `(reply, error)` result of one `Proxy.connect` call (on error the
reply is nil, on success the error is nil — see connect.go). -/
inductive ConnectRes
  | fail (e : Err)
  | ok (m : DnsMsg)
deriving DecidableEq

/-- `trimTrailingDot` from edge.go: removes the root domain from a DNS
address (the last byte, when it is a dot).  Stated on the character list
of the string, which for DNS names coincides with Go's byte view. -/
def trimTrailingDot (s : String) : String :=
  if s = "" then s
  else if s.data.getLast? ≠ some '.' then s
  else String.mk s.data.dropLast

/-- Splits a character list at the dots (helper for `nameLabels`). -/
def labelsAux : List Char → List Char → List String
  | [], cur => [String.mk cur.reverse]
  | c :: rest, cur =>
    if c = '.' then String.mk cur.reverse :: labelsAux rest []
    else labelsAux rest (c :: cur)

/-- The label sequence of a DNS name (trailing root dot dropped). -/
def nameLabels (s : String) : List String :=
  if trimTrailingDot s = "" then [] else labelsAux (trimTrailingDot s).data []

/-- Modelled from the spec: `plugin.Name.Matches` (coredns, not among the
sources) — "Matches means DNS-name suffix match with label boundaries";
`pat` matches `name` when `pat`'s labels are a suffix of `name`'s. -/
def nameMatches (pat name : String) : Bool :=
  (nameLabels pat).isSuffixOf (nameLabels name)

/-- `Edge` from edge.go, restricted to the fields the query engine reads. -/
structure Edge where
  baseDomain : String
  ignored : List String
  /-- Modelled from the spec: the `Set` type of local services is not
  among the sources; per the spec it is a set of service names, embedded
  as a list with `Contains` = membership. -/
  services : List String
  /-- Modelled from the spec: `ConcurrentServiceTable` is not among the
  sources; per the spec it maps a service name to a set of Sites, with
  iteration order made explicit by the list. -/
  table : List (String × List Site)
  ip : IP
  geoCoords : Point
  /-- The point encoded in the `locRR` LOC record of this edge site. -/
  locRR : Point
  proxies : List Proxy
  maxUpstreamFails : Nat
deriving DecidableEq

/-- `Edge.isAllowedDomain` from edge.go: a name equal to the base domain
is always allowed; otherwise any matching ignored pattern forbids it. -/
def isAllowedDomain (e : Edge) (name : String) : Bool :=
  if name = e.baseDomain then true
  else if e.ignored.any (fun ignore => nameMatches ignore name) then false
  else true

/-- `Edge.match` from edge.go: the name must match the base domain and be
an allowed domain. -/
def matchReq (e : Edge) (name : String) : Bool :=
  if !(nameMatches e.baseDomain name) || !(isAllowedDomain e name) then false
  else true

/-- Modelled from the spec: `ConcurrentServiceTable.Lookup` is not among
the sources; per the spec it returns the entry's site set with
`found = true`, and an empty set with `found = false` for an absent key. -/
def tableLookup (t : List (String × List Site)) (name : String) :
    List Site × Bool :=
  match t.find? (fun kv => kv.1 == name) with
  | some kv => (kv.2, true)
  | none => ([], false)

/-- Modelled from the spec: `Proxy.Down` is not among the sources; per
the spec (§4.3, §8.6) `Down(k)` is true iff the failure counter is ≥ k,
and is never true when k = 0 (probe-disabled mode). -/
def proxyDown (p : Proxy) (maxFails : Nat) : Bool :=
  if maxFails = 0 then false else decide (maxFails ≤ p.fails)

/-- Modelled from the spec: `request.Request.Match` (coredns, not among
the sources) — the reply must be a response whose question matches the
request's question. -/
def stateMatch (st : ReqState) (m : DnsMsg) : Bool :=
  m.response && (m.qname == st.req.qname) && (m.qtype == st.req.qtype)

/-- Modelled from the spec: `request.Request.ErrorMessage` (coredns, not
among the sources) — a fresh reply to the request carrying the given
rcode (dns.Msg.SetRcode = SetReply + Rcode). -/
def errorMessage (st : ReqState) (rcode : Nat) : DnsMsg :=
  { emptyMsg with
    qname := st.req.qname, qtype := st.req.qtype, qcls := st.req.qcls,
    response := true, opcode := st.req.opcode,
    recursionDesired :=
      if st.req.opcode = 0 then st.req.recursionDesired else false,
    rcode := rcode }

/-- The single answer record built by `writeAuthoritativeResponse`
(edge.go): an A record holding ip.To4() when the family is IPv4, an AAAA
record holding the ip when it is IPv6. -/
def answerRR (st : ReqState) (ip : IP) : RR :=
  match st.family with
  | .ipv4 => RR.A st.req.qname st.req.qcls (ipTo4 ip)
  | .ipv6 => RR.AAAA st.req.qname st.req.qcls ip

/-- `writeAuthoritativeResponse` from edge.go: SetReply on the request,
Authoritative and Compress set, a single A/AAAA answer, rcode success. -/
def writeAuthoritativeResponse (st : ReqState) (ip : IP) : DnsMsg :=
  { qname := st.req.qname, qtype := st.req.qtype, qcls := st.req.qcls,
    response := true, opcode := st.req.opcode,
    recursionDesired :=
      if st.req.opcode = 0 then st.req.recursionDesired else false,
    authoritative := true, compress := true, rcode := 0,
    answer := [answerRR st ip], loc := none }

/-- The loop body of `findClosestToPoint` (edge.go): the running state is
(closest, minDist, first); an element strictly closer than the running
minimum (or the first element) replaces it. -/
def findClosestGo (dist : Point → Point → ℚ) (p : Point) :
    List Site → IP → ℚ → Bool → IP
  | [], closest, _, _ => closest
  | s :: rest, closest, minDist, first =>
    if first ∨ dist p s.coords < minDist then
      findClosestGo dist p rest s.ip (dist p s.coords) false
    else
      findClosestGo dist p rest closest minDist first

/-- `findClosestToPoint` from edge.go, with the great-circle distance
(whose source, `Point.GreatCircleDistance`, is not among the sources)
abstracted as the parameter `dist`. -/
def findClosestToPoint (dist : Point → Point → ℚ) (edgeSiteSet : List Site)
    (p : Point) : IP :=
  findClosestGo dist p edgeSiteSet [] 0 true

/-- The selection policies of edge.go (policy.go section): random and
round_robin. -/
inductive PolicyKind
  | random
  | roundRobin
deriving DecidableEq

/-- `random.List` from edge.go, with the library's random draws passed
in: `coin` models `rand.Int()%2 == 0` for the two-element case and
`perm` models the output of `rand.Perm(len(p))`. -/
def randomList (coin : Bool) (perm : List Nat) (p : List Proxy) :
    List Proxy :=
  if p.length = 1 then p
  else if p.length = 2 then
    if coin then [p.getD 1 dfltProxy, p.getD 0 dfltProxy] else p
  else perm.map (fun i => p.getD i dfltProxy)

/-- `roundRobin.List` from edge.go: `robin` is the stored uint32 counter;
the head index is the atomically incremented counter modulo the pool
length.  In Go, `% poolLen` with `poolLen = 0` is an integer division by
zero and panics, modelled by `none`. -/
def roundRobinList (robin : Nat) (p : List Proxy) :
    Option (List Proxy) :=
  if p.length = 0 then none
  else
    let i := ((robin + 1) % 4294967296) % p.length
    some (p.getD i dfltProxy :: (p.take i ++ p.drop (i + 1)))

/-- One call to `e.list()` = `e.policy.List(e.proxies)`: returns the
ordered list (or `none` on the round-robin division-by-zero panic)
together with the updated round-robin counter. -/
def edgeListFn (pol : PolicyKind) (robin : Nat) (coin : Bool)
    (perm : List Nat) (p : List Proxy) : Option (List Proxy × Nat) :=
  match pol with
  | .random => some (randomList coin perm p, robin)
  | .roundRobin =>
    match roundRobinList robin p with
    | none => none
    | some l => some (l, (robin + 1) % 4294967296)

/-- The inner retry loop around `proxy.connect` in ServeDNS (edge.go
lines 252-259): on an `io.EOF` error the connect is retried exactly once
on the next oracle entry; the second result is taken as-is.  Returns the
result and the next unconsumed oracle index. -/
def connectWithRetry (oracle : Nat → ConnectRes) (k : Nat) :
    ConnectRes × Nat :=
  match oracle k with
  | .fail .eof => (oracle (k + 1), k + 2)
  | r => (r, k + 1)

/-- The outcome of the ServeDNS forwarding loop before the write-out:
a matched reply was selected, a question mismatch was detected, the last
recorded upstream error survived to the end, or the loop exhausted with
no error (fall through to the next plugin). -/
inductive LoopRes
  | success (m : DnsMsg)
  | formErr
  | failure (e : Err)
  | toNext
deriving DecidableEq

/-- The ServeDNS forwarding loop (edge.go lines 227-313) over the
policy-ordered proxy list.  `len` is `len(e.proxies)`, `lastResort` the
head of the fresh `random` ordering used when all proxies are down,
`truncFn` the (absent-from-sources) `truncated` helper, `k` the next
oracle index and `acc` the trace of proxies connect was invoked on.
Each attempt goes through the EOF retry loop (`connectWithRetry`). -/
def serveDNSLoopAux (len maxFails : Nat) (oracle : Nat → ConnectRes)
    (truncFn : ConnectRes → ConnectRes) (st : ReqState)
    (lastResort : Proxy) :
    List Proxy → Nat → Option Err → Nat → List Nat → LoopRes × List Nat
  | [], _, uerr, _, acc =>
    match uerr with
    | some e => (.failure e, acc)
    | none => (.toNext, acc)
  | p :: rest, fails, uerr, k, acc =>
    if proxyDown p maxFails then
      if fails + 1 < len then
        serveDNSLoopAux len maxFails oracle truncFn st lastResort rest
          (fails + 1) uerr k acc
      else
        match truncFn (connectWithRetry oracle k).1 with
        | .fail e => (.failure e, acc ++ [lastResort.id])
        | .ok m =>
          if stateMatch st m then (.success m, acc ++ [lastResort.id])
          else (.formErr, acc ++ [lastResort.id])
    else
      match truncFn (connectWithRetry oracle k).1 with
      | .fail e =>
        if fails < len then
          serveDNSLoopAux len maxFails oracle truncFn st lastResort rest
            fails (some e) (connectWithRetry oracle k).2 (acc ++ [p.id])
        else (.failure e, acc ++ [p.id])
      | .ok m =>
        if stateMatch st m then (.success m, acc ++ [p.id])
        else (.formErr, acc ++ [p.id])

/-- The typed errors of the Forward helper (lookup.go): a transport
error, `errNoHealthy`, or `errNoEdge`. -/
inductive FwdErr
  | transport (e : Err)
  | noHealthy
  | noEdge
deriving DecidableEq

/-- The `(reply, error)` result of `Edge.Forward`. -/
inductive FwdRes
  | ok (m : DnsMsg)
  | failure (e : FwdErr)
deriving DecidableEq

/-- The traversal loop of `Edge.Forward` (lookup.go lines 36-75):
`lastResortF` is the head of the second `e.list()` call used when all
proxies are down.  Unlike the ServeDNS loop, each attempt calls connect
exactly once (no EOF retry); a question mismatch returns the FormErr
error message as the reply with a nil error. -/
def forwardLoopAux (len maxFails : Nat) (oracle : Nat → ConnectRes)
    (truncFn : ConnectRes → ConnectRes) (st : ReqState)
    (lastResortF : Proxy) :
    List Proxy → Nat → Option Err → Nat → List Nat → FwdRes × List Nat
  | [], _, uerr, _, acc =>
    match uerr with
    | some e => (.failure (.transport e), acc)
    | none => (.failure .noHealthy, acc)
  | p :: rest, fails, uerr, k, acc =>
    if proxyDown p maxFails then
      if fails + 1 < len then
        forwardLoopAux len maxFails oracle truncFn st lastResortF rest
          (fails + 1) uerr k acc
      else
        match truncFn (oracle k) with
        | .fail e => (.failure (.transport e), acc ++ [lastResortF.id])
        | .ok m =>
          if stateMatch st m then (.ok m, acc ++ [lastResortF.id])
          else (.ok (errorMessage st 1), acc ++ [lastResortF.id])
    else
      match truncFn (oracle k) with
      | .fail e =>
        if fails < len then
          forwardLoopAux len maxFails oracle truncFn st lastResortF rest
            fails (some e) (k + 1) (acc ++ [p.id])
        else (.failure (.transport e), acc ++ [p.id])
      | .ok m =>
        if stateMatch st m then (.ok m, acc ++ [p.id])
        else (.ok (errorMessage st 1), acc ++ [p.id])

/-- `Edge.Forward` (lookup.go): order the proxies under the configured
policy (this is where an empty proxy list reaches `roundRobin.List` and
its division by zero, modelled as `none`), compute the last-resort head
from a second `e.list()` call, and run the traversal loop. -/
def edgeForward (pol : PolicyKind) (robin : Nat) (coin : Bool)
    (perm : List Nat) (coin2 : Bool) (perm2 : List Nat)
    (proxies : List Proxy) (maxFails : Nat) (oracle : Nat → ConnectRes)
    (truncFn : ConnectRes → ConnectRes) (st : ReqState) :
    Option (FwdRes × List Nat) :=
  match edgeListFn pol robin coin perm proxies with
  | none => none
  | some (order, robin2) =>
    let lastResortF :=
      match edgeListFn pol robin2 coin2 perm2 proxies with
      | some (l, _) => l.getD 0 dfltProxy
      | none => dfltProxy
    some (forwardLoopAux proxies.length maxFails oracle truncFn st
      lastResortF order 0 none 0 [])

/-- The overall verdict of `Edge.ServeDNS`: yield the (possibly rewritten)
message to the next plugin, write a reply and return the given rcode, or
return ServerFailure with the last upstream error. -/
inductive ServeResult
  | nextPlugin (r : DnsMsg)
  | written (m : DnsMsg) (rcode : Nat)
  | serverFailure (e : Err)
deriving DecidableEq

/-- Mapping the forwarding-loop outcome to what ServeDNS does with it
(edge.go lines 279-297 and 300-313): a matched reply is compressed,
scrubbed and written; a mismatch writes the FormErr error message; a
surviving error returns ServerFailure; exhaustion falls through with the
rewritten request. -/
def mapLoopResult (st2 : ReqState) (scrub : DnsMsg → DnsMsg)
    (r2 : DnsMsg) : LoopRes → ServeResult
  | .success m => .written (scrub { m with compress := true }) 0
  | .formErr => .written (errorMessage st2 1) 0
  | .failure e => .serverFailure e
  | .toNext => .nextPlugin r2

/-- `Edge.ServeDNS` (edge.go lines 159-314).  Parameters: `dist` the
great-circle distance, `pol`/`robin`/`coin`/`perm` the selection policy
and its random draws for `e.list()`, `coin2`/`perm2` the fresh draws of
the `new(random)` last-resort pick, `oracle` the per-call connect
results, `truncFn` the `truncated` helper, `scrub` `state.Scrub`.
Returns `none` only on a Go runtime panic inside the policy, and
otherwise the verdict with the trace of proxies connect was called on. -/
def serveDNS (dist : Point → Point → ℚ) (pol : PolicyKind) (robin : Nat)
    (coin : Bool) (perm : List Nat) (coin2 : Bool) (perm2 : List Nat)
    (oracle : Nat → ConnectRes) (truncFn : ConnectRes → ConnectRes)
    (scrub : DnsMsg → DnsMsg) (e : Edge) (st : ReqState) :
    Option (ServeResult × List Nat) :=
  if matchReq e st.req.qname = false then
    some (.nextPlugin st.req, [])
  else
    let locOpt := st.req.loc
    let locFound := locOpt.isSome
    let r1 : DnsMsg := { st.req with loc := none }
    let st1 : ReqState := { st with req := r1 }
    let requestedService := trimTrailingDot st1.req.qname
    if !locFound && e.services.contains requestedService then
      some (.written (writeAuthoritativeResponse st1 e.ip) 0, [])
    else
      let lookupRes := tableLookup e.table requestedService
      if lookupRes.2 && decide (0 < lookupRes.1.length) then
        let closest :=
          if locFound then
            findClosestToPoint dist lookupRes.1 (locOpt.getD dfltPoint)
          else findClosestToPoint dist lookupRes.1 e.geoCoords
        some (.written (writeAuthoritativeResponse st1 closest) 0, [])
      else if e.proxies.length = 0 then
        some (.nextPlugin r1, [])
      else
        let r2 : DnsMsg := { r1 with loc := some e.locRR }
        let st2 : ReqState := { st with req := r2 }
        match edgeListFn pol robin coin perm e.proxies with
        | none => none
        | some (order, _) =>
          let lastResort := (randomList coin2 perm2 e.proxies).getD 0 dfltProxy
          let res := serveDNSLoopAux e.proxies.length e.maxUpstreamFails
            oracle truncFn st2 lastResort order 0 none 0 []
          some (mapLoopResult st2 scrub r2 res.1, res.2)

/-- How `Proxy.connect` disposes of the connection it obtained from
`Dial`: closed (not given back to the pool), or yielded back to the pool. -/
inductive ConnEvent
  | closed
  | yielded
deriving DecidableEq

/-- The I/O outcomes of one `Proxy.connect` call: the dial result, the
write result and the read result. -/
structure ConnOutcome where
  dialErr : Option Err
  writeErr : Option Err
  readRes : ConnectRes
deriving DecidableEq

/-- The UDP buffer size `connect` sets on the connection:
`uint16(state.Size())`, raised to 512 when smaller (connect.go 46-49). -/
def connUDPSize (st : ReqState) : Nat :=
  let s := st.size % 65536
  if s < 512 then 512 else s

/-- `Proxy.connect` from connect.go: dial, set the UDP size, write the
request, read one reply.  A write or read error closes the connection; a
successful read yields it back to the pool.  Returns the `(reply, error)`
pair and the disposal events of the dialled connection (empty when the
dial itself failed and no connection was obtained). -/
def proxyConnect (o : ConnOutcome) :
    (Option DnsMsg × Option Err) × List ConnEvent :=
  match o.dialErr with
  | some e => ((none, some e), [])
  | none =>
    match o.writeErr with
    | some e => ((none, some e), [.closed])
    | none =>
      match o.readRes with
      | .fail e => ((none, some e), [.closed])
      | .ok m => ((some m, none), [.yielded])

/-- `dns.Msg.SetQuestion` from the miekg/dns library (an external
dependency): sets the question section to the given name and type,
generates an Id, and sets the RecursionDesired bit to true. -/
def setQuestion (m : DnsMsg) (z : String) (t : Nat) : DnsMsg :=
  { m with qname := z, qtype := t, recursionDesired := true }

/-- dns.TypeNS. -/
def typeNS : Nat := 2

/-- The health-check query built by `Proxy.sendHealthCheck` (connect.go
line 112-113): `new(dns.Msg)` followed by `SetQuestion(".", dns.TypeNS)`. -/
def healthCheckQuery : DnsMsg := setQuestion emptyMsg "." typeNS

/-- `Proxy.sendHealthCheck` from connect.go: exchange the health-check
query with the upstream (`exchange` abstracts `p.client.Exchange`,
returning the reply and error); an error is forgiven when a reply came
back that is a response or carries the query opcode (dns.OpcodeQuery = 0). -/
def sendHealthCheck (exchange : DnsMsg → Option DnsMsg × Option Err) :
    Option Err :=
  let mz := exchange healthCheckQuery
  match mz.2, mz.1 with
  | some e, some m => if m.response || m.opcode == 0 then none else some e
  | some e, none => some e
  | none, _ => none

/-- `Proxy.Check` from connect.go: on a health-check error the uint32
failure counter is atomically incremented, otherwise it is reset to 0.
Returns the new counter value. -/
def proxyCheck (exchange : DnsMsg → Option DnsMsg × Option Err)
    (fails : Nat) : Nat :=
  match sendHealthCheck exchange with
  | some _ => (fails + 1) % 4294967296
  | none => 0

/-- A concrete distance function (squared Euclidean on the coordinates)
used to instantiate the abstract `dist` parameter in witnesses. -/
def dist0 : Point → Point → ℚ := fun a b =>
  (a.lat - b.lat) * (a.lat - b.lat) + (a.lon - b.lon) * (a.lon - b.lon)

/-- The identity instantiation of the `truncated` helper parameter. -/
def idTrunc : ConnectRes → ConnectRes := fun r => r

/-- The identity instantiation of the `state.Scrub` parameter. -/
def idScrub : DnsMsg → DnsMsg := fun m => m

/-- A reply that is a well-formed response to a question for `svc.`/A. -/
def replyMsgW : DnsMsg :=
  { emptyMsg with response := true, qname := "svc.", qtype := 1 }

/-- A request state asking for `svc.`/A over IPv4. -/
def stateW : ReqState :=
  { req := { emptyMsg with qname := "svc.", qtype := 1, qcls := 1 },
    family := .ipv4, size := 512 }

/-- An oracle whose every connect attempt succeeds with `replyMsgW`. -/
def okOracle : Nat → ConnectRes := fun _ => .ok replyMsgW

/-- A local-hit configuration: base domain `.`, service `svc` running
locally, own IP 1.2.3.4. -/
def localEdgeW : Edge :=
  { baseDomain := ".", ignored := [], services := ["svc"], table := [],
    ip := [1, 2, 3, 4], geoCoords := dfltPoint, locRR := dfltPoint,
    proxies := [], maxUpstreamFails := 2 }

/-- A configuration whose base domain is `example.org.`. -/
def narrowEdgeW : Edge :=
  { baseDomain := "example.org.", ignored := ["bad.example.org."],
    services := [], table := [], ip := [1, 2, 3, 4], geoCoords := dfltPoint,
    locRR := dfltPoint, proxies := [], maxUpstreamFails := 2 }

/-- A configuration whose base domain `optikon.` is itself listed among
the ignored patterns, with the service `optikon` running locally. -/
def ignoredEdgeW : Edge :=
  { baseDomain := "optikon.", ignored := ["optikon."],
    services := ["optikon"], table := [], ip := [9, 9, 9, 9],
    geoCoords := dfltPoint, locRR := dfltPoint, proxies := [],
    maxUpstreamFails := 2 }

/-- A request for `optikon.`/A over IPv4. -/
def ignoredStW : ReqState :=
  { req := { emptyMsg with qname := "optikon.", qtype := 1, qcls := 1 },
    family := .ipv4, size := 512 }

/-- Number of down proxies in a list. -/
def downCount (maxFails : Nat) (order : List Proxy) : Nat :=
  (order.filter (fun p => proxyDown p maxFails)).length

/-- Number of up (not down) proxies in a list. -/
def upCount (maxFails : Nat) (order : List Proxy) : Nat :=
  (order.filter (fun p => !proxyDown p maxFails)).length

/-- The translation from a ServeDNS-loop outcome to the `(reply, error)`
pair Forward would produce for the same traversal outcome. -/
def loopResToFwd (st : ReqState) : LoopRes → FwdRes
  | .success m => .ok m
  | .formErr => .ok (errorMessage st 1)
  | .failure e => .failure (.transport e)
  | .toNext => .failure .noHealthy

/-- An oracle whose first connect attempt ends in io.EOF and whose later
attempts succeed (a stale pooled TCP connection). -/
def eofOracle : Nat → ConnectRes := fun k =>
  if k = 0 then .fail .eof else .ok replyMsgW

/-- A reply whose question does not match `stateW`'s question. -/
def mismatchReplyW : DnsMsg :=
  { emptyMsg with response := true, qname := "elsewhere.", qtype := 1 }

/-- An oracle always replying with the mismatching reply. -/
def mismatchOracle : Nat → ConnectRes := fun _ => .ok mismatchReplyW

/-- An edge with one healthy upstream proxy and nothing else configured. -/
def oneProxyEdgeW : Edge :=
  { baseDomain := ".", ignored := [], services := [], table := [],
    ip := [1, 2, 3, 4], geoCoords := dfltPoint, locRR := dfltPoint,
    proxies := [Proxy.mk 0 0], maxUpstreamFails := 2 }

/-- An oracle whose every connect attempt fails with a non-EOF transport
error. -/
def errOracle : Nat → ConnectRes := fun _ => .fail (.other 7)

/-- The error sequence matching `errOracle`. -/
def errSeq7 : Nat → Err := fun _ => .other 7

/-- Two proxies, the first down (5 failures ≥ 2), the second healthy. -/
def twoProxyEdgeW : Edge :=
  { baseDomain := ".", ignored := [], services := [], table := [],
    ip := [1, 2, 3, 4], geoCoords := dfltPoint, locRR := dfltPoint,
    proxies := [Proxy.mk 1 5, Proxy.mk 2 0], maxUpstreamFails := 2 }

/-- A single proxy with 3 failures under max_fails = 0 (health-gating
disabled). -/
def zeroMaxEdgeW : Edge :=
  { baseDomain := ".", ignored := [], services := [], table := [],
    ip := [1, 2, 3, 4], geoCoords := dfltPoint, locRR := dfltPoint,
    proxies := [Proxy.mk 0 3], maxUpstreamFails := 0 }

/-- Two sites known to run `svc`: one at (10,0) and one at (1,0). -/
def sitesW : List Site :=
  [Site.mk [3, 3, 3, 3] ⟨10, 0⟩, Site.mk [2, 2, 2, 2] ⟨1, 0⟩]

/-- A configuration with a table entry for `svc` and own point (0,0). -/
def tableEdgeW : Edge :=
  { baseDomain := ".", ignored := [], services := [],
    table := [("svc", sitesW)], ip := [1, 2, 3, 4],
    geoCoords := ⟨0, 0⟩, locRR := ⟨0, 0⟩, proxies := [],
    maxUpstreamFails := 2 }

/-- A configuration where `svc` both runs locally and has a table entry
for a different site. -/
def shadowEdgeW : Edge :=
  { baseDomain := ".", ignored := [], services := ["svc"],
    table := [("svc", [Site.mk [2, 2, 2, 2] ⟨0, 0⟩])], ip := [1, 2, 3, 4],
    geoCoords := ⟨5, 5⟩, locRR := ⟨5, 5⟩, proxies := [],
    maxUpstreamFails := 2 }

/-- C10: every call to `Proxy.connect` disposes of the connection obtained
from `Dial` in exactly one way — on a write or read error the connection
is closed and not yielded back, and on success it is yielded back to the
pool; no path leaks it or both closes and yields it. -/
theorem connect_disposes_conn_exactly_once (o : ConnOutcome)
    (h : o.dialErr = none) :
    ((proxyConnect o).2 = [ConnEvent.closed] ∧ (proxyConnect o).1.1 = none
      ∧ (∃ e, (proxyConnect o).1.2 = some e))
    ∨ ((proxyConnect o).2 = [ConnEvent.yielded]
      ∧ (∃ m, (proxyConnect o).1.1 = some m)
      ∧ (proxyConnect o).1.2 = none) := by
  rcases o with ⟨d, w, r⟩
  simp only at h
  subst h
  cases w with
  | some e => exact Or.inl ⟨rfl, rfl, e, rfl⟩
  | none =>
    cases r with
    | fail e => exact Or.inl ⟨rfl, rfl, e, rfl⟩
    | ok m => exact Or.inr ⟨rfl, ⟨m, rfl⟩, rfl⟩

/-- Witness for C10: a successful connect (dial, write and read all
succeed) yields the connection back to the pool. -/
theorem connect_disposes_conn_exactly_once_witness :
    (ConnOutcome.mk none none (.ok emptyMsg)).dialErr = none
    ∧ (((proxyConnect ⟨none, none, .ok emptyMsg⟩).2 = [ConnEvent.closed]
        ∧ (proxyConnect ⟨none, none, .ok emptyMsg⟩).1.1 = none
        ∧ (∃ e, (proxyConnect ⟨none, none, .ok emptyMsg⟩).1.2 = some e))
      ∨ ((proxyConnect ⟨none, none, .ok emptyMsg⟩).2 = [ConnEvent.yielded]
        ∧ (∃ m, (proxyConnect ⟨none, none, .ok emptyMsg⟩).1.1 = some m)
        ∧ (proxyConnect ⟨none, none, .ok emptyMsg⟩).1.2 = none)) :=
  ⟨rfl, connect_disposes_conn_exactly_once ⟨none, none, .ok emptyMsg⟩ rfl⟩

/-- C9: `roundRobin.List` computes its head index as the incremented
counter modulo the list length with no zero-length guard, so every call
on an empty proxy list is a division by zero (modelled `none`); and
`Edge.Forward` invokes the policy without checking that any proxies are
configured, so under the round-robin policy it hits that panic on an
empty proxy list. -/
theorem roundRobin_empty_division_by_zero :
    (∀ robin, roundRobinList robin [] = none)
    ∧ (∀ robin coin perm coin2 perm2 maxFails oracle truncFn st,
        edgeForward .roundRobin robin coin perm coin2 perm2 [] maxFails
          oracle truncFn st = none) := by
  constructor
  · intro robin
    simp [roundRobinList]
  · intro robin coin perm coin2 perm2 maxFails oracle truncFn st
    simp [edgeForward, edgeListFn, roundRobinList]

/-- C8 exhibit: the health-check probe built by `sendHealthCheck` queries
`.` of type NS but has the RecursionDesired bit SET (dns.Msg.SetQuestion
sets RD to true), contradicting the code's own `+norec` comment; the
failure counter is incremented by one on a transport error with no reply
and reset to zero on any forgiven reply. -/
theorem healthcheck_probe_recursion_desired :
    healthCheckQuery.qname = "." ∧ healthCheckQuery.qtype = typeNS
    ∧ healthCheckQuery.recursionDesired = true
    ∧ (∀ fails, proxyCheck (fun _ => (none, some (Err.other 1))) fails
        = (fails + 1) % 4294967296)
    ∧ (∀ fails,
        proxyCheck (fun _ => (some { emptyMsg with response := true }, none))
          fails = 0) := by
  refine ⟨rfl, rfl, rfl, fun fails => rfl, fun fails => rfl⟩

/-- C2: a request that passes the filter, carries no location marker and
whose service name (query name with the trailing dot trimmed) is in the
LocalServiceSet is answered authoritatively with exactly one answer
record (A for the IPv4 family carrying ip.To4, AAAA for IPv6), address
equal to this cluster's own IP, Authoritative and Compress set, rcode
success. -/
theorem local_hit_authoritative_own_ip (dist : Point → Point → ℚ)
    (pol : PolicyKind) (robin : Nat) (coin : Bool) (perm : List Nat)
    (coin2 : Bool) (perm2 : List Nat) (oracle : Nat → ConnectRes)
    (truncFn : ConnectRes → ConnectRes) (scrub : DnsMsg → DnsMsg)
    (e : Edge) (st : ReqState)
    (hm : matchReq e st.req.qname = true)
    (hloc : st.req.loc = none)
    (hsvc : e.services.contains (trimTrailingDot st.req.qname) = true) :
    serveDNS dist pol robin coin perm coin2 perm2 oracle truncFn scrub e st
      = some (.written (writeAuthoritativeResponse st e.ip) 0, [])
    ∧ (writeAuthoritativeResponse st e.ip).authoritative = true
    ∧ (writeAuthoritativeResponse st e.ip).compress = true
    ∧ (writeAuthoritativeResponse st e.ip).answer.length = 1
    ∧ (st.family = .ipv4 →
        (writeAuthoritativeResponse st e.ip).answer
          = [RR.A st.req.qname st.req.qcls (ipTo4 e.ip)]
        ∧ (e.ip.length = 4 →
            rrAddr ((writeAuthoritativeResponse st e.ip).answer.getD 0
              (RR.A "" 0 [])) = e.ip))
    ∧ (st.family = .ipv6 →
        (writeAuthoritativeResponse st e.ip).answer
          = [RR.AAAA st.req.qname st.req.qcls e.ip]) := by
  refine ⟨?_, rfl, rfl, rfl, ?_, ?_⟩
  · simp only [serveDNS, hm, hloc, hsvc]
    simp [writeAuthoritativeResponse, answerRR]
  · intro h4
    refine ⟨by simp [writeAuthoritativeResponse, answerRR, h4], ?_⟩
    intro hlen
    simp [writeAuthoritativeResponse, answerRR, h4, rrAddr, ipTo4, hlen]
  · intro h6
    simp [writeAuthoritativeResponse, answerRR, h6]

/-- Witness for C2 at a concrete local-hit request. -/
theorem local_hit_authoritative_own_ip_witness :
    (matchReq localEdgeW stateW.req.qname = true
      ∧ stateW.req.loc = none
      ∧ localEdgeW.services.contains (trimTrailingDot stateW.req.qname) = true)
    ∧ (serveDNS dist0 .random 0 false [] false [] okOracle idTrunc idScrub
        localEdgeW stateW
        = some (.written (writeAuthoritativeResponse stateW localEdgeW.ip) 0, [])
      ∧ (writeAuthoritativeResponse stateW localEdgeW.ip).authoritative = true
      ∧ (writeAuthoritativeResponse stateW localEdgeW.ip).compress = true
      ∧ (writeAuthoritativeResponse stateW localEdgeW.ip).answer.length = 1
      ∧ (stateW.family = .ipv4 →
          (writeAuthoritativeResponse stateW localEdgeW.ip).answer
            = [RR.A stateW.req.qname stateW.req.qcls (ipTo4 localEdgeW.ip)]
          ∧ (localEdgeW.ip.length = 4 →
              rrAddr ((writeAuthoritativeResponse stateW localEdgeW.ip).answer.getD 0
                (RR.A "" 0 [])) = localEdgeW.ip))
      ∧ (stateW.family = .ipv6 →
          (writeAuthoritativeResponse stateW localEdgeW.ip).answer
            = [RR.AAAA stateW.req.qname stateW.req.qcls localEdgeW.ip])) :=
  ⟨⟨by decide, rfl, by decide⟩,
    local_hit_authoritative_own_ip dist0 .random 0 false [] false [] okOracle
      idTrunc idScrub localEdgeW stateW (by decide) rfl (by decide)⟩

/-- C4 (amended): a request whose name fails to match the base domain, or
whose name differs from the base domain and matches a configured ignored
pattern, is yielded to the next plugin with the message unmodified. -/
theorem filter_fail_yields_unmodified (dist : Point → Point → ℚ)
    (pol : PolicyKind) (robin : Nat) (coin : Bool) (perm : List Nat)
    (coin2 : Bool) (perm2 : List Nat) (oracle : Nat → ConnectRes)
    (truncFn : ConnectRes → ConnectRes) (scrub : DnsMsg → DnsMsg)
    (e : Edge) (st : ReqState)
    (h : nameMatches e.baseDomain st.req.qname = false
      ∨ (st.req.qname ≠ e.baseDomain
          ∧ ∃ ig ∈ e.ignored, nameMatches ig st.req.qname = true)) :
    serveDNS dist pol robin coin perm coin2 perm2 oracle truncFn scrub e st
      = some (.nextPlugin st.req, []) := by
  have hm : matchReq e st.req.qname = false := by
    rcases h with h1 | ⟨hne, ig, hig, hmat⟩
    · simp [matchReq, h1]
    · have hany : e.ignored.any (fun ignore => nameMatches ignore st.req.qname)
          = true :=
        List.any_eq_true.mpr ⟨ig, hig, hmat⟩
      have hall : isAllowedDomain e st.req.qname = false := by
        simp [isAllowedDomain, if_neg hne, hany]
      simp [matchReq, hall]
  simp [serveDNS, hm]

/-- Witness for C4 at a request outside the base domain: the query
`svc.` does not match base domain `example.org.` and is yielded
unmodified. -/
theorem filter_fail_yields_unmodified_witness :
    (nameMatches narrowEdgeW.baseDomain stateW.req.qname = false
      ∨ (stateW.req.qname ≠ narrowEdgeW.baseDomain
          ∧ ∃ ig ∈ narrowEdgeW.ignored, nameMatches ig stateW.req.qname = true))
    ∧ serveDNS dist0 .random 0 false [] false [] okOracle idTrunc idScrub
        narrowEdgeW stateW = some (.nextPlugin stateW.req, []) :=
  ⟨Or.inl (by decide),
   filter_fail_yields_unmodified dist0 .random 0 false [] false [] okOracle
     idTrunc idScrub narrowEdgeW stateW (Or.inl (by decide))⟩

/-- Counterexample to C4 as stated: the query name `optikon.` matches the
configured ignored pattern `optikon.`, yet the engine does NOT yield to
the next plugin — because the name equals the base domain,
`isAllowedDomain` ignores the ignore list and the engine answers the
request authoritatively. -/
theorem filter_ignored_base_counterexample :
    ignoredEdgeW.ignored.any
        (fun ig => nameMatches ig ignoredStW.req.qname) = true
    ∧ serveDNS dist0 .random 0 false [] false [] okOracle idTrunc idScrub
        ignoredEdgeW ignoredStW
      = some (.written (writeAuthoritativeResponse ignoredStW ignoredEdgeW.ip) 0,
          []) := by
  constructor
  · decide
  · decide

theorem downCount_cons_down {maxFails : Nat} {p : Proxy} {rest : List Proxy}
    (h : proxyDown p maxFails = true) :
    downCount maxFails (p :: rest) = downCount maxFails rest + 1 := by
  simp [downCount, List.filter_cons, h]

theorem downCount_cons_up {maxFails : Nat} {p : Proxy} {rest : List Proxy}
    (h : proxyDown p maxFails = false) :
    downCount maxFails (p :: rest) = downCount maxFails rest := by
  simp [downCount, List.filter_cons, h]

theorem upCount_cons_down {maxFails : Nat} {p : Proxy} {rest : List Proxy}
    (h : proxyDown p maxFails = true) :
    upCount maxFails (p :: rest) = upCount maxFails rest := by
  simp [upCount, List.filter_cons, h]

theorem upCount_cons_up {maxFails : Nat} {p : Proxy} {rest : List Proxy}
    (h : proxyDown p maxFails = false) :
    upCount maxFails (p :: rest) = upCount maxFails rest + 1 := by
  simp [upCount, List.filter_cons, h]

/-- When the connect attempt does not hit io.EOF, the retry loop makes a
single call and consumes one oracle index. -/
theorem connectWithRetry_no_eof (oracle : Nat → ConnectRes) (k : Nat)
    (h : oracle k ≠ ConnectRes.fail Err.eof) :
    connectWithRetry oracle k = (oracle k, k + 1) := by
  unfold connectWithRetry
  split
  · next heq => exact absurd heq h
  · rfl

/-- A traversal over an all-down remainder that can never reach the
last-resort branch only skips: the recorded error survives untouched. -/
theorem serveDNSLoopAux_allDown_skips (len maxFails : Nat)
    (oracle : Nat → ConnectRes) (truncFn : ConnectRes → ConnectRes)
    (st : ReqState) (lastResort : Proxy) :
    ∀ (order : List Proxy) (fails : Nat) (e : Err) (k : Nat) (acc : List Nat),
    (∀ q ∈ order, proxyDown q maxFails = true) →
    fails + order.length < len →
    serveDNSLoopAux len maxFails oracle truncFn st lastResort order fails
      (some e) k acc = (.failure e, acc) := by
  intro order
  induction order with
  | nil =>
    intro fails e k acc _ _
    simp [serveDNSLoopAux]
  | cons p rest ih =>
    intro fails e k acc hdown hlen
    have hd : proxyDown p maxFails = true := hdown p (by simp)
    have hlt : fails + 1 < len := by
      simp only [List.length_cons] at hlen
      omega
    simp only [serveDNSLoopAux, hd, if_true, hlt]
    exact ih (fails + 1) e k acc (fun q hq => hdown q (by simp [hq]))
      (by simp only [List.length_cons] at hlen; omega)

/-- C3 (amended): as long as no connect attempt returns io.EOF and not
all proxies are down (so the last-resort branch is never taken), the
Forward traversal yields exactly the outcome of the ServeDNS forwarding
loop — same down-skip rule and same FormErr-on-mismatch — for any
last-resort parameters of either loop.  (The excluded cases differ:
Forward performs no EOF retry, and its last resort is the head of a
fresh policy ordering rather than a fresh uniform-random pick.) -/
theorem forward_refines_serveDNS_loop (len maxFails : Nat)
    (oracle : Nat → ConnectRes) (truncFn : ConnectRes → ConnectRes)
    (st : ReqState) (lrS lrF : Proxy)
    (hnoeof : ∀ j, oracle j ≠ ConnectRes.fail Err.eof) :
    ∀ (order : List Proxy) (fails : Nat) (uerr : Option Err) (k : Nat)
      (acc : List Nat),
    fails + downCount maxFails order < len →
    forwardLoopAux len maxFails oracle truncFn st lrF order fails uerr k acc
      = (loopResToFwd st
          (serveDNSLoopAux len maxFails oracle truncFn st lrS order fails
            uerr k acc).1,
        (serveDNSLoopAux len maxFails oracle truncFn st lrS order fails
          uerr k acc).2) := by
  intro order
  induction order with
  | nil =>
    intro fails uerr k acc _
    cases uerr <;> simp [forwardLoopAux, serveDNSLoopAux, loopResToFwd]
  | cons p rest ih =>
    intro fails uerr k acc hinv
    have hcwr : connectWithRetry oracle k = (oracle k, k + 1) :=
      connectWithRetry_no_eof oracle k (hnoeof k)
    by_cases hd : proxyDown p maxFails = true
    · have hdc : downCount maxFails (p :: rest) = downCount maxFails rest + 1 :=
        downCount_cons_down hd
      have hlt : fails + 1 < len := by omega
      simp only [forwardLoopAux, serveDNSLoopAux, hd, if_true, hlt]
      exact ih (fails + 1) uerr k acc (by omega)
    · have hd2 : proxyDown p maxFails = false := by
        cases hpd : proxyDown p maxFails
        · rfl
        · exact absurd hpd hd
      have hdc : downCount maxFails (p :: rest) = downCount maxFails rest :=
        downCount_cons_up hd2
      have hflt : fails < len := by omega
      simp only [forwardLoopAux, serveDNSLoopAux, hd2, Bool.false_eq_true,
        if_false, hcwr]
      cases htr : truncFn (oracle k) with
      | fail e =>
        simp only [hflt, if_true]
        exact ih fails (some e) (k + 1) (acc ++ [p.id]) (by omega)
      | ok m =>
        cases hsm : stateMatch st m <;> simp [hsm, loopResToFwd]

/-- Witness for C3 at a concrete one-proxy traversal with no EOF and the
proxy up: both loops deliver the same successful reply. -/
theorem forward_refines_serveDNS_loop_witness :
    ((∀ j, okOracle j ≠ ConnectRes.fail Err.eof)
      ∧ 0 + downCount 2 [Proxy.mk 0 0] < 1)
    ∧ forwardLoopAux 1 2 okOracle idTrunc stateW dfltProxy
        [Proxy.mk 0 0] 0 none 0 []
      = (loopResToFwd stateW
          (serveDNSLoopAux 1 2 okOracle idTrunc stateW dfltProxy
            [Proxy.mk 0 0] 0 none 0 []).1,
        (serveDNSLoopAux 1 2 okOracle idTrunc stateW dfltProxy
          [Proxy.mk 0 0] 0 none 0 []).2) :=
  ⟨⟨fun _ h => ConnectRes.noConfusion h, by decide⟩,
    forward_refines_serveDNS_loop 1 2 okOracle idTrunc stateW dfltProxy
      dfltProxy (fun _ h => ConnectRes.noConfusion h) [Proxy.mk 0 0] 0 none 0
      [] (by decide)⟩

/-- Counterexample to C3 as stated: on a pooled-connection EOF followed
by a good reply, the ServeDNS loop retries once and succeeds while
Forward records the EOF as a plain error and fails the request — the two
traversals are not semantically identical. -/
theorem forward_not_identical_counterexample :
    forwardLoopAux 1 2 eofOracle idTrunc stateW dfltProxy
        [Proxy.mk 0 0] 0 none 0 []
      ≠ (loopResToFwd stateW
          (serveDNSLoopAux 1 2 eofOracle idTrunc stateW dfltProxy
            [Proxy.mk 0 0] 0 none 0 []).1,
        (serveDNSLoopAux 1 2 eofOracle idTrunc stateW dfltProxy
          [Proxy.mk 0 0] 0 none 0 []).2) := by
  decide

/-- C6: when an attempted (healthy) proxy produces a reply whose question
does not match the request, the forwarding loop stops immediately —
regardless of how many proxies remain — with the FormErr verdict, which
ServeDNS writes to the client as the rcode-1 error message. -/
theorem formerr_on_mismatch_terminal (len maxFails : Nat)
    (oracle : Nat → ConnectRes) (truncFn : ConnectRes → ConnectRes)
    (st : ReqState) (lastResort : Proxy) (p : Proxy) (rest : List Proxy)
    (fails : Nat) (uerr : Option Err) (k : Nat) (acc : List Nat) (m : DnsMsg)
    (hnd : proxyDown p maxFails = false)
    (hok : truncFn (connectWithRetry oracle k).1 = ConnectRes.ok m)
    (hmis : stateMatch st m = false) :
    serveDNSLoopAux len maxFails oracle truncFn st lastResort (p :: rest)
        fails uerr k acc
      = (LoopRes.formErr, acc ++ [p.id])
    ∧ (∀ (st2 : ReqState) (scrub : DnsMsg → DnsMsg) (r2 : DnsMsg),
        mapLoopResult st2 scrub r2 LoopRes.formErr
          = ServeResult.written (errorMessage st2 1) 0
        ∧ (errorMessage st2 1).rcode = 1) := by
  constructor
  · simp only [serveDNSLoopAux, hnd, Bool.false_eq_true, if_false, hok, hmis]
  · intro st2 scrub r2
    exact ⟨rfl, rfl⟩

/-- Witness for C6: a healthy proxy returning a mismatching reply makes
the loop stop at that proxy with the FormErr verdict. -/
theorem formerr_on_mismatch_terminal_witness :
    (proxyDown (Proxy.mk 0 0) 2 = false
      ∧ idTrunc (connectWithRetry mismatchOracle 0).1
          = ConnectRes.ok mismatchReplyW
      ∧ stateMatch stateW mismatchReplyW = false)
    ∧ (serveDNSLoopAux 2 2 mismatchOracle idTrunc stateW dfltProxy
        [Proxy.mk 0 0, Proxy.mk 1 0] 0 none 0 []
        = (LoopRes.formErr, [] ++ [(Proxy.mk 0 0).id])
      ∧ (∀ (st2 : ReqState) (scrub : DnsMsg → DnsMsg) (r2 : DnsMsg),
          mapLoopResult st2 scrub r2 LoopRes.formErr
            = ServeResult.written (errorMessage st2 1) 0
          ∧ (errorMessage st2 1).rcode = 1)) :=
  ⟨⟨by decide, by decide, by decide⟩,
    formerr_on_mismatch_terminal 2 2 mismatchOracle idTrunc stateW dfltProxy
      (Proxy.mk 0 0) [Proxy.mk 1 0] 0 none 0 [] mismatchReplyW (by decide)
      (by decide) (by decide)⟩

/-- When a request passes the filter, is neither a local hit nor a table
hit, and at least one proxy is configured, ServeDNS inserts its own LOC
record and runs the forwarding loop over the policy ordering of the
proxy list, with the fresh random head as last resort. -/
theorem serveDNS_forward_phase (dist : Point → Point → ℚ)
    (pol : PolicyKind) (robin : Nat) (coin : Bool) (perm : List Nat)
    (coin2 : Bool) (perm2 : List Nat) (oracle : Nat → ConnectRes)
    (truncFn : ConnectRes → ConnectRes) (scrub : DnsMsg → DnsMsg)
    (e : Edge) (st : ReqState) (order : List Proxy) (robin2 : Nat)
    (hm : matchReq e st.req.qname = true)
    (hnl : (!st.req.loc.isSome
        && e.services.contains (trimTrailingDot st.req.qname)) = false)
    (htab : ((tableLookup e.table (trimTrailingDot st.req.qname)).2
        && decide
          (0 < (tableLookup e.table (trimTrailingDot st.req.qname)).1.length))
        = false)
    (hprox : e.proxies.length ≠ 0)
    (horder : edgeListFn pol robin coin perm e.proxies = some (order, robin2)) :
    serveDNS dist pol robin coin perm coin2 perm2 oracle truncFn scrub e st
      = some
        (mapLoopResult { st with req := { st.req with loc := some e.locRR } }
          scrub { st.req with loc := some e.locRR }
          (serveDNSLoopAux e.proxies.length e.maxUpstreamFails oracle truncFn
            { st with req := { st.req with loc := some e.locRR } }
            ((randomList coin2 perm2 e.proxies).getD 0 dfltProxy)
            order 0 none 0 []).1,
        (serveDNSLoopAux e.proxies.length e.maxUpstreamFails oracle truncFn
          { st with req := { st.req with loc := some e.locRR } }
          ((randomList coin2 perm2 e.proxies).getD 0 dfltProxy)
          order 0 none 0 []).2) := by
  simp only [serveDNS, hm, hnl, htab, hprox, horder]
  simp

/-- If every connect attempt (after the `truncated` post-processing)
errors, and at least one proxy in the order is up, the traversal ends
with the error of the final attempt recorded as the surviving upstream
error. -/
theorem serveDNSLoopAux_all_errors (len maxFails : Nat)
    (oracle : Nat → ConnectRes) (truncFn : ConnectRes → ConnectRes)
    (st : ReqState) (lastResort : Proxy) (errSeq : Nat → Err)
    (herr : ∀ j, truncFn (oracle j) = ConnectRes.fail (errSeq j))
    (hnoeof : ∀ j, oracle j ≠ ConnectRes.fail Err.eof) :
    ∀ (order : List Proxy) (fails : Nat) (uerr : Option Err) (k : Nat)
      (acc : List Nat),
    fails + downCount maxFails order < len →
    (∃ q ∈ order, proxyDown q maxFails = false) →
    (serveDNSLoopAux len maxFails oracle truncFn st lastResort order fails
        uerr k acc).1
      = LoopRes.failure (errSeq (k + upCount maxFails order - 1)) := by
  intro order
  induction order with
  | nil =>
    intro fails uerr k acc _ hex
    rcases hex with ⟨q, hq, _⟩
    simp at hq
  | cons p rest ih =>
    intro fails uerr k acc hinv hex
    by_cases hd : proxyDown p maxFails = true
    · have hdc := @downCount_cons_down maxFails p rest hd
      have hlt : fails + 1 < len := by omega
      simp only [serveDNSLoopAux, hd, if_true, hlt]
      have hex2 : ∃ q ∈ rest, proxyDown q maxFails = false := by
        rcases hex with ⟨q, hq, hqf⟩
        rcases List.mem_cons.mp hq with rfl | hq2
        · rw [hd] at hqf; cases hqf
        · exact ⟨q, hq2, hqf⟩
      rw [upCount_cons_down hd]
      exact ih (fails + 1) uerr k acc (by omega) hex2
    · have hd2 : proxyDown p maxFails = false := by
        cases hpd : proxyDown p maxFails
        · rfl
        · exact absurd hpd hd
      have hdc := @downCount_cons_up maxFails p rest hd2
      have hcwr := connectWithRetry_no_eof oracle k (hnoeof k)
      have hflt : fails < len := by omega
      simp only [serveDNSLoopAux, hd2, Bool.false_eq_true, if_false, hcwr,
        herr k, hflt, if_true]
      rw [upCount_cons_up hd2]
      by_cases hex3 : ∃ q ∈ rest, proxyDown q maxFails = false
      · have harith : k + 1 + upCount maxFails rest - 1
            = k + (upCount maxFails rest + 1) - 1 := by omega
        rw [ih fails (some (errSeq k)) (k + 1) (acc ++ [p.id]) (by omega) hex3,
          harith]
      · have hall : ∀ q ∈ rest, proxyDown q maxFails = true := by
          intro q hq
          cases hpq : proxyDown q maxFails
          · exact absurd ⟨q, hq, hpq⟩ hex3
          · rfl
        have hfl : downCount maxFails rest = rest.length := by
          unfold downCount
          rw [List.filter_eq_self.mpr hall]
        have hup : upCount maxFails rest = 0 := by
          unfold upCount
          have hnil : rest.filter (fun q => !proxyDown q maxFails) = [] := by
            rw [List.filter_eq_nil_iff]
            intro q hq
            simp [hall q hq]
          simp [hnil]
        rw [serveDNSLoopAux_allDown_skips len maxFails oracle truncFn st
          lastResort rest fails (errSeq k) (k + 1) (acc ++ [p.id]) hall
          (by omega)]
        rw [hup]
        simp

/-- C7: when every connect attempt produces a transport error (so the
last recorded error is non-nil), ServeDNS returns ServerFailure together
with that last error. -/
theorem serverfailure_with_last_error (dist : Point → Point → ℚ)
    (pol : PolicyKind) (robin : Nat) (coin : Bool) (perm : List Nat)
    (coin2 : Bool) (perm2 : List Nat) (oracle : Nat → ConnectRes)
    (truncFn : ConnectRes → ConnectRes) (scrub : DnsMsg → DnsMsg)
    (e : Edge) (st : ReqState) (order : List Proxy) (robin2 : Nat)
    (errSeq : Nat → Err)
    (hm : matchReq e st.req.qname = true)
    (hnl : (!st.req.loc.isSome
        && e.services.contains (trimTrailingDot st.req.qname)) = false)
    (htab : ((tableLookup e.table (trimTrailingDot st.req.qname)).2
        && decide
          (0 < (tableLookup e.table (trimTrailingDot st.req.qname)).1.length))
        = false)
    (hprox : e.proxies.length ≠ 0)
    (horder : edgeListFn pol robin coin perm e.proxies = some (order, robin2))
    (herr : ∀ j, truncFn (oracle j) = ConnectRes.fail (errSeq j))
    (hnoeof : ∀ j, oracle j ≠ ConnectRes.fail Err.eof)
    (hinv : downCount e.maxUpstreamFails order < e.proxies.length)
    (hex : ∃ q ∈ order, proxyDown q e.maxUpstreamFails = false) :
    ((serveDNS dist pol robin coin perm coin2 perm2 oracle truncFn scrub
        e st).getD (ServeResult.nextPlugin emptyMsg, [])).1
      = ServeResult.serverFailure
          (errSeq (upCount e.maxUpstreamFails order - 1)) := by
  rw [serveDNS_forward_phase dist pol robin coin perm coin2 perm2 oracle
    truncFn scrub e st order robin2 hm hnl htab hprox horder]
  simp only [Option.getD_some]
  rw [serveDNSLoopAux_all_errors e.proxies.length e.maxUpstreamFails oracle
    truncFn { st with req := { st.req with loc := some e.locRR } }
    ((randomList coin2 perm2 e.proxies).getD 0 dfltProxy) errSeq herr hnoeof
    order 0 none 0 [] (by omega) hex]
  simp [mapLoopResult]

/-- Witness for C7: one healthy proxy whose connect attempt errors makes
ServeDNS return ServerFailure with that error. -/
theorem serverfailure_with_last_error_witness :
    (matchReq oneProxyEdgeW stateW.req.qname = true
      ∧ (!stateW.req.loc.isSome && oneProxyEdgeW.services.contains
          (trimTrailingDot stateW.req.qname)) = false
      ∧ ((tableLookup oneProxyEdgeW.table (trimTrailingDot stateW.req.qname)).2
          && decide (0 < (tableLookup oneProxyEdgeW.table
            (trimTrailingDot stateW.req.qname)).1.length)) = false
      ∧ oneProxyEdgeW.proxies.length ≠ 0
      ∧ edgeListFn .random 0 false [] oneProxyEdgeW.proxies
          = some ([Proxy.mk 0 0], 0)
      ∧ (∀ j, idTrunc (errOracle j) = ConnectRes.fail (errSeq7 j))
      ∧ (∀ j, errOracle j ≠ ConnectRes.fail Err.eof)
      ∧ downCount oneProxyEdgeW.maxUpstreamFails [Proxy.mk 0 0]
          < oneProxyEdgeW.proxies.length
      ∧ (∃ q ∈ [Proxy.mk 0 0],
          proxyDown q oneProxyEdgeW.maxUpstreamFails = false))
    ∧ ((serveDNS dist0 .random 0 false [] false [] errOracle idTrunc idScrub
          oneProxyEdgeW stateW).getD (ServeResult.nextPlugin emptyMsg, [])).1
        = ServeResult.serverFailure
            (errSeq7 (upCount oneProxyEdgeW.maxUpstreamFails
              [Proxy.mk 0 0] - 1)) :=
  ⟨⟨by decide, by decide, by decide, by decide, by decide, fun _ => rfl,
      by intro j h; simp [errOracle] at h, by decide, by decide⟩,
    serverfailure_with_last_error dist0 .random 0 false [] false [] errOracle
      idTrunc idScrub oneProxyEdgeW stateW [Proxy.mk 0 0] 0 errSeq7
      (by decide) (by decide) (by decide) (by decide) (by decide)
      (fun _ => rfl) (by intro j h; simp [errOracle] at h) (by decide)
      (by decide)⟩

/-- Every proxy the traversal attempts (when the last-resort branch is
unreachable) is one of the up proxies of the order, beyond whatever was
already in the trace accumulator. -/
theorem serveDNSLoopAux_attempts_up (len maxFails : Nat)
    (oracle : Nat → ConnectRes) (truncFn : ConnectRes → ConnectRes)
    (st : ReqState) (lastResort : Proxy) :
    ∀ (order : List Proxy) (fails : Nat) (uerr : Option Err) (k : Nat)
      (acc : List Nat),
    fails + downCount maxFails order < len →
    ∀ i ∈ (serveDNSLoopAux len maxFails oracle truncFn st lastResort order
        fails uerr k acc).2,
      i ∈ acc
      ∨ i ∈ (order.filter (fun q => !proxyDown q maxFails)).map Proxy.id := by
  intro order
  induction order with
  | nil =>
    intro fails uerr k acc _ i hi
    cases uerr <;> simp [serveDNSLoopAux] at hi <;> exact Or.inl hi
  | cons p rest ih =>
    intro fails uerr k acc hinv i hi
    by_cases hd : proxyDown p maxFails = true
    · have hdc := @downCount_cons_down maxFails p rest hd
      have hlt : fails + 1 < len := by omega
      simp only [serveDNSLoopAux, hd, if_true, hlt] at hi
      rcases ih (fails + 1) uerr k acc (by omega) i hi with h | h
      · exact Or.inl h
      · right
        simpa [List.filter_cons, hd] using h
    · have hd2 : proxyDown p maxFails = false := by
        cases hpd : proxyDown p maxFails
        · rfl
        · exact absurd hpd hd
      have hdc := @downCount_cons_up maxFails p rest hd2
      have hflt : fails < len := by omega
      simp only [serveDNSLoopAux, hd2, Bool.false_eq_true, if_false] at hi
      have hmem : i ∈ acc ++ [p.id] →
          i ∈ acc
          ∨ i ∈ ((p :: rest).filter
              (fun q => !proxyDown q maxFails)).map Proxy.id := by
        intro hia
        rcases List.mem_append.mp hia with h | h
        · exact Or.inl h
        · right
          simp only [List.mem_singleton] at h
          subst h
          simp [List.filter_cons, hd2]
      cases htr : truncFn (connectWithRetry oracle k).1 with
      | fail e =>
        rw [htr] at hi
        simp only [hflt, if_true] at hi
        rcases ih fails (some e) (connectWithRetry oracle k).2 (acc ++ [p.id])
            (by omega) i hi with h | h
        · exact hmem h
        · right
          simpa [List.filter_cons, hd2] using Or.inr h
      | ok m =>
        simp only [htr] at hi
        have hsplit : (if stateMatch st m = true
            then (LoopRes.success m, acc ++ [p.id])
            else (LoopRes.formErr, acc ++ [p.id])).2 = acc ++ [p.id] := by
          split <;> rfl
        rw [hsplit] at hi
        exact hmem hi

/-- When every proxy of a full-length order is down, the traversal makes
exactly one connect attempt, on the last-resort proxy. -/
theorem serveDNSLoopAux_allDown_lastResort (len maxFails : Nat)
    (oracle : Nat → ConnectRes) (truncFn : ConnectRes → ConnectRes)
    (st : ReqState) (lastResort : Proxy) :
    ∀ (order : List Proxy) (fails : Nat) (uerr : Option Err) (k : Nat)
      (acc : List Nat),
    (∀ q ∈ order, proxyDown q maxFails = true) →
    fails + order.length = len →
    order ≠ [] →
    (serveDNSLoopAux len maxFails oracle truncFn st lastResort order fails
        uerr k acc).2 = acc ++ [lastResort.id] := by
  intro order
  induction order with
  | nil =>
    intro _ _ _ _ _ _ h
    exact absurd rfl h
  | cons p rest ih =>
    intro fails uerr k acc hall hlen _
    have hd : proxyDown p maxFails = true := hall p (by simp)
    by_cases hr : rest = []
    · subst hr
      have hnlt : ¬(fails + 1 < len) := by
        simp only [List.length_cons, List.length_nil] at hlen
        omega
      simp only [serveDNSLoopAux, hd, if_true, hnlt, if_false]
      cases htr : truncFn (connectWithRetry oracle k).1 with
      | fail e => rfl
      | ok m => cases hsm : stateMatch st m <;> simp [hsm]
    · have hlt : fails + 1 < len := by
        have hpos : 0 < rest.length := List.length_pos.mpr hr
        simp only [List.length_cons] at hlen
        omega
      simp only [serveDNSLoopAux, hd, if_true, hlt]
      exact ih (fails + 1) uerr k acc (fun r hrm => hall r (by simp [hrm]))
        (by simp only [List.length_cons] at hlen ⊢; omega) hr

/-- C5 (amended): in the ServeDNS forwarding loop, with maxUpstreamFails
positive, every proxy whose failure counter is at least maxUpstreamFails
is skipped (all connect attempts are on proxies with counter below the
threshold) — except that when all proxies in the order are down, exactly
one proxy, the head of the fresh random ordering of the proxy list, is
the one connected to. -/
theorem down_skipped_random_last_resort (dist : Point → Point → ℚ)
    (pol : PolicyKind) (robin : Nat) (coin : Bool) (perm : List Nat)
    (coin2 : Bool) (perm2 : List Nat) (oracle : Nat → ConnectRes)
    (truncFn : ConnectRes → ConnectRes) (scrub : DnsMsg → DnsMsg)
    (e : Edge) (st : ReqState) (order : List Proxy) (robin2 : Nat)
    (hm : matchReq e st.req.qname = true)
    (hnl : (!st.req.loc.isSome
        && e.services.contains (trimTrailingDot st.req.qname)) = false)
    (htab : ((tableLookup e.table (trimTrailingDot st.req.qname)).2
        && decide
          (0 < (tableLookup e.table (trimTrailingDot st.req.qname)).1.length))
        = false)
    (hprox : e.proxies.length ≠ 0)
    (horder : edgeListFn pol robin coin perm e.proxies = some (order, robin2))
    (hmax : 0 < e.maxUpstreamFails)
    (hlen : order.length = e.proxies.length) :
    (downCount e.maxUpstreamFails order < e.proxies.length →
      ∀ i ∈ ((serveDNS dist pol robin coin perm coin2 perm2 oracle truncFn
          scrub e st).getD (ServeResult.nextPlugin emptyMsg, [])).2,
        i ∈ (order.filter
            (fun q => decide (q.fails < e.maxUpstreamFails))).map Proxy.id)
    ∧ ((∀ q ∈ order, e.maxUpstreamFails ≤ q.fails) →
        ((serveDNS dist pol robin coin perm coin2 perm2 oracle truncFn scrub
            e st).getD (ServeResult.nextPlugin emptyMsg, [])).2
          = [((randomList coin2 perm2 e.proxies).getD 0 dfltProxy).id]) := by
  have hne0 : e.maxUpstreamFails ≠ 0 := by omega
  have hconv : (fun q : Proxy => !proxyDown q e.maxUpstreamFails)
      = fun q : Proxy => decide (q.fails < e.maxUpstreamFails) := by
    funext q
    unfold proxyDown
    rw [if_neg hne0]
    by_cases hq : e.maxUpstreamFails ≤ q.fails
    · simp [hq, Nat.not_lt.mpr hq]
    · simp [hq, Nat.lt_of_not_le hq]
  rw [serveDNS_forward_phase dist pol robin coin perm coin2 perm2 oracle
    truncFn scrub e st order robin2 hm hnl htab hprox horder]
  simp only [Option.getD_some]
  constructor
  · intro hdc i hi
    rcases serveDNSLoopAux_attempts_up e.proxies.length e.maxUpstreamFails
        oracle truncFn _ _ order 0 none 0 [] (by omega) i hi with h | h
    · simp at h
    · rw [← hconv]
      exact h
  · intro hall
    have hall2 : ∀ q ∈ order, proxyDown q e.maxUpstreamFails = true := by
      intro q hq
      unfold proxyDown
      rw [if_neg hne0]
      exact decide_eq_true (hall q hq)
    have hON : order ≠ [] := by
      intro h0
      subst h0
      simp at hlen
      exact hprox hlen.symm
    have hres := serveDNSLoopAux_allDown_lastResort e.proxies.length
      e.maxUpstreamFails oracle truncFn
      { st with req := { st.req with loc := some e.locRR } }
      ((randomList coin2 perm2 e.proxies).getD 0 dfltProxy) order 0 none 0 []
      hall2 (by omega) hON
    simpa using hres

/-- Witness for C5: under the round-robin ordering [proxy 2, proxy 1]
with proxy 1 down, every connect attempt lands on a proxy with counter
below the threshold. -/
theorem down_skipped_random_last_resort_witness :
    (matchReq twoProxyEdgeW stateW.req.qname = true
      ∧ (!stateW.req.loc.isSome && twoProxyEdgeW.services.contains
          (trimTrailingDot stateW.req.qname)) = false
      ∧ ((tableLookup twoProxyEdgeW.table
            (trimTrailingDot stateW.req.qname)).2
          && decide (0 < (tableLookup twoProxyEdgeW.table
            (trimTrailingDot stateW.req.qname)).1.length)) = false
      ∧ twoProxyEdgeW.proxies.length ≠ 0
      ∧ edgeListFn .roundRobin 0 false [] twoProxyEdgeW.proxies
          = some ([Proxy.mk 2 0, Proxy.mk 1 5], 1)
      ∧ 0 < twoProxyEdgeW.maxUpstreamFails
      ∧ ([Proxy.mk 2 0, Proxy.mk 1 5] : List Proxy).length
          = twoProxyEdgeW.proxies.length)
    ∧ ((downCount twoProxyEdgeW.maxUpstreamFails
          [Proxy.mk 2 0, Proxy.mk 1 5] < twoProxyEdgeW.proxies.length →
        ∀ i ∈ ((serveDNS dist0 .roundRobin 0 false [] false [] okOracle
            idTrunc idScrub twoProxyEdgeW stateW).getD
            (ServeResult.nextPlugin emptyMsg, [])).2,
          i ∈ (([Proxy.mk 2 0, Proxy.mk 1 5] : List Proxy).filter
              (fun q => decide
                (q.fails < twoProxyEdgeW.maxUpstreamFails))).map Proxy.id)
      ∧ ((∀ q ∈ ([Proxy.mk 2 0, Proxy.mk 1 5] : List Proxy),
            twoProxyEdgeW.maxUpstreamFails ≤ q.fails) →
          ((serveDNS dist0 .roundRobin 0 false [] false [] okOracle idTrunc
              idScrub twoProxyEdgeW stateW).getD
              (ServeResult.nextPlugin emptyMsg, [])).2
            = [((randomList false [] twoProxyEdgeW.proxies).getD 0
                dfltProxy).id])) :=
  ⟨⟨by decide, by decide, by decide, by decide, by decide, by decide,
      by decide⟩,
    down_skipped_random_last_resort dist0 .roundRobin 0 false [] false []
      okOracle idTrunc idScrub twoProxyEdgeW stateW
      [Proxy.mk 2 0, Proxy.mk 1 5] 1 (by decide) (by decide) (by decide)
      (by decide) (by decide) (by decide) (by decide)⟩

/-- Counterexample to C5 as stated: with maxUpstreamFails = 0, the proxy
with failure counter 3 ≥ 0 = maxUpstreamFails is nevertheless connected
to (trace [0]) rather than skipped — Down is never true at threshold 0. -/
theorem down_skip_counterexample :
    zeroMaxEdgeW.maxUpstreamFails ≤ (Proxy.mk 0 3).fails
    ∧ ((serveDNS dist0 .random 0 false [] false [] okOracle idTrunc idScrub
        zeroMaxEdgeW stateW).getD (ServeResult.nextPlugin emptyMsg, [])).2
      = [(Proxy.mk 0 3).id] := by
  constructor
  · decide
  · decide

/-- Characterisation of the `findClosestToPoint` loop from an arbitrary
running state with the first-flag cleared: either no element strictly
beats the running minimum and the running closest survives, or the
result is the first element attaining the strict minimum below it. -/
theorem findClosestGo_spec (dist : Point → Point → ℚ) (p : Point) :
    ∀ (l : List Site) (c : IP) (m : ℚ),
    (findClosestGo dist p l c m false = c
      ∧ ∀ j, j < l.length → m ≤ dist p (l.getD j dfltSite).coords)
    ∨ (∃ i, i < l.length
        ∧ findClosestGo dist p l c m false = (l.getD i dfltSite).ip
        ∧ dist p (l.getD i dfltSite).coords < m
        ∧ (∀ j, j < l.length →
            dist p (l.getD i dfltSite).coords
              ≤ dist p (l.getD j dfltSite).coords)
        ∧ (∀ j, j < i →
            dist p (l.getD i dfltSite).coords
              < dist p (l.getD j dfltSite).coords)) := by
  intro l
  induction l with
  | nil =>
    intro c m
    left
    refine ⟨rfl, ?_⟩
    intro j hj
    simp at hj
  | cons s rest ih =>
    intro c m
    by_cases hlt : dist p s.coords < m
    · have hunf : findClosestGo dist p (s :: rest) c m false
          = findClosestGo dist p rest s.ip (dist p s.coords) false := by
        simp [findClosestGo, hlt]
      rcases ih s.ip (dist p s.coords)
        with ⟨heq, hall⟩ | ⟨i, hi, heq, hlt2, hmin, hfirst⟩
      · right
        refine ⟨0, by simp, by rw [hunf, heq]; simp, by simpa using hlt,
          ?_, ?_⟩
        · intro j hj
          cases j with
          | zero => simp
          | succ j2 =>
            simp only [List.getD_cons_succ, List.getD_cons_zero]
            exact hall j2 (by simpa using hj)
        · intro j hj
          omega
      · right
        refine ⟨i + 1, by simp only [List.length_cons]; omega,
          by rw [hunf, heq]; simp [List.getD_cons_succ], ?_, ?_, ?_⟩
        · calc dist p (((s :: rest).getD (i + 1) dfltSite)).coords
              = dist p ((rest.getD i dfltSite)).coords := by
                simp [List.getD_cons_succ]
            _ < dist p s.coords := hlt2
            _ < m := hlt
        · intro j hj
          cases j with
          | zero =>
            simp only [List.getD_cons_succ, List.getD_cons_zero]
            exact le_of_lt hlt2
          | succ j2 =>
            simp only [List.getD_cons_succ]
            exact hmin j2 (by simpa using hj)
        · intro j hj
          cases j with
          | zero =>
            simp only [List.getD_cons_succ, List.getD_cons_zero]
            exact hlt2
          | succ j2 =>
            simp only [List.getD_cons_succ]
            exact hfirst j2 (by omega)
    · have hunf : findClosestGo dist p (s :: rest) c m false
          = findClosestGo dist p rest c m false := by
        simp [findClosestGo, hlt]
      rcases ih c m with ⟨heq, hall⟩ | ⟨i, hi, heq, hlt2, hmin, hfirst⟩
      · left
        refine ⟨by rw [hunf, heq], ?_⟩
        intro j hj
        cases j with
        | zero =>
          simpa using le_of_not_lt hlt
        | succ j2 =>
          simp only [List.getD_cons_succ]
          exact hall j2 (by simpa using hj)
      · right
        refine ⟨i + 1, by simp only [List.length_cons]; omega,
          by rw [hunf, heq]; simp [List.getD_cons_succ], ?_, ?_, ?_⟩
        · simpa [List.getD_cons_succ] using hlt2
        · intro j hj
          cases j with
          | zero =>
            simp only [List.getD_cons_succ, List.getD_cons_zero]
            exact le_of_lt (lt_of_lt_of_le hlt2 (le_of_not_lt hlt))
          | succ j2 =>
            simp only [List.getD_cons_succ]
            exact hmin j2 (by simpa using hj)
        · intro j hj
          cases j with
          | zero =>
            simp only [List.getD_cons_succ, List.getD_cons_zero]
            exact lt_of_lt_of_le hlt2 (le_of_not_lt hlt)
          | succ j2 =>
            simp only [List.getD_cons_succ]
            exact hfirst j2 (by omega)

/-- `findClosestToPoint` on a nonempty site set returns the IP of the
first site minimising the distance to the reference point (ties broken
by the first site in iteration order). -/
theorem findClosest_min (dist : Point → Point → ℚ) (p : Point)
    (sites : List Site) (hne : sites ≠ []) :
    ∃ i, i < sites.length
      ∧ findClosestToPoint dist sites p = (sites.getD i dfltSite).ip
      ∧ (∀ j, j < sites.length →
          dist p (sites.getD i dfltSite).coords
            ≤ dist p (sites.getD j dfltSite).coords)
      ∧ (∀ j, j < i →
          dist p (sites.getD i dfltSite).coords
            < dist p (sites.getD j dfltSite).coords) := by
  obtain ⟨s, rest, rfl⟩ := List.exists_cons_of_ne_nil hne
  have hunf : findClosestToPoint dist (s :: rest) p
      = findClosestGo dist p rest s.ip (dist p s.coords) false := by
    simp [findClosestToPoint, findClosestGo]
  rcases findClosestGo_spec dist p rest s.ip (dist p s.coords)
    with ⟨heq, hall⟩ | ⟨i, hi, heq, hlt2, hmin, hfirst⟩
  · refine ⟨0, by simp, by rw [hunf, heq]; simp, ?_, ?_⟩
    · intro j hj
      cases j with
      | zero => simp
      | succ j2 =>
        simp only [List.getD_cons_succ, List.getD_cons_zero]
        exact hall j2 (by simpa using hj)
    · intro j hj
      omega
  · refine ⟨i + 1, by simp only [List.length_cons]; omega,
      by rw [hunf, heq]; simp [List.getD_cons_succ], ?_, ?_⟩
    · intro j hj
      cases j with
      | zero =>
        simp only [List.getD_cons_succ, List.getD_cons_zero]
        exact le_of_lt hlt2
      | succ j2 =>
        simp only [List.getD_cons_succ]
        exact hmin j2 (by simpa using hj)
    · intro j hj
      cases j with
      | zero =>
        simp only [List.getD_cons_succ, List.getD_cons_zero]
        exact hlt2
      | succ j2 =>
        simp only [List.getD_cons_succ]
        exact hfirst j2 (by omega)

/-- C1 (amended): a request that passes the filter, is not answered as a
local hit, and whose service has a table entry with at least one site is
answered with the IP computed by `findClosestToPoint` over that entry at
the marker point (when present) or this cluster's own point — and that
IP is the IP of the first site minimising the distance to the reference
point. -/
theorem redirect_to_closest_site (dist : Point → Point → ℚ)
    (pol : PolicyKind) (robin : Nat) (coin : Bool) (perm : List Nat)
    (coin2 : Bool) (perm2 : List Nat) (oracle : Nat → ConnectRes)
    (truncFn : ConnectRes → ConnectRes) (scrub : DnsMsg → DnsMsg)
    (e : Edge) (st : ReqState) (sites : List Site)
    (hm : matchReq e st.req.qname = true)
    (hnl : (!st.req.loc.isSome
        && e.services.contains (trimTrailingDot st.req.qname)) = false)
    (htab : tableLookup e.table (trimTrailingDot st.req.qname)
        = (sites, true))
    (hne : sites ≠ []) :
    serveDNS dist pol robin coin perm coin2 perm2 oracle truncFn scrub e st
      = some (.written (writeAuthoritativeResponse st
          (findClosestToPoint dist sites (st.req.loc.getD e.geoCoords))) 0,
        [])
    ∧ (∃ i, i < sites.length
        ∧ findClosestToPoint dist sites (st.req.loc.getD e.geoCoords)
            = (sites.getD i dfltSite).ip
        ∧ (∀ j, j < sites.length →
            dist (st.req.loc.getD e.geoCoords)
                (sites.getD i dfltSite).coords
              ≤ dist (st.req.loc.getD e.geoCoords)
                  (sites.getD j dfltSite).coords)
        ∧ (∀ j, j < i →
            dist (st.req.loc.getD e.geoCoords)
                (sites.getD i dfltSite).coords
              < dist (st.req.loc.getD e.geoCoords)
                  (sites.getD j dfltSite).coords)) := by
  constructor
  · have hlen : 0 < sites.length := List.length_pos.mpr hne
    simp only [serveDNS, hm, hnl, htab, Bool.false_eq_true, if_false, hlen]
    cases hloc : st.req.loc with
    | none => simp [writeAuthoritativeResponse, answerRR]
    | some q => simp [writeAuthoritativeResponse, answerRR]
  · exact findClosest_min dist (st.req.loc.getD e.geoCoords) sites hne

/-- Witness for C1: the redirect picks the site at (1,0) (IP 2.2.2.2),
the closer of the two to the own point (0,0). -/
theorem redirect_to_closest_site_witness :
    (matchReq tableEdgeW stateW.req.qname = true
      ∧ (!stateW.req.loc.isSome && tableEdgeW.services.contains
          (trimTrailingDot stateW.req.qname)) = false
      ∧ tableLookup tableEdgeW.table (trimTrailingDot stateW.req.qname)
          = (sitesW, true)
      ∧ sitesW ≠ [])
    ∧ (serveDNS dist0 .random 0 false [] false [] okOracle idTrunc idScrub
          tableEdgeW stateW
        = some (.written (writeAuthoritativeResponse stateW
            (findClosestToPoint dist0 sitesW
              (stateW.req.loc.getD tableEdgeW.geoCoords))) 0, [])
      ∧ (∃ i, i < sitesW.length
          ∧ findClosestToPoint dist0 sitesW
              (stateW.req.loc.getD tableEdgeW.geoCoords)
              = (sitesW.getD i dfltSite).ip
          ∧ (∀ j, j < sitesW.length →
              dist0 (stateW.req.loc.getD tableEdgeW.geoCoords)
                  (sitesW.getD i dfltSite).coords
                ≤ dist0 (stateW.req.loc.getD tableEdgeW.geoCoords)
                    (sitesW.getD j dfltSite).coords)
          ∧ (∀ j, j < i →
              dist0 (stateW.req.loc.getD tableEdgeW.geoCoords)
                  (sitesW.getD i dfltSite).coords
                < dist0 (stateW.req.loc.getD tableEdgeW.geoCoords)
                    (sitesW.getD j dfltSite).coords))) :=
  ⟨⟨by decide, by decide, by decide, by decide⟩,
    redirect_to_closest_site dist0 .random 0 false [] false [] okOracle
      idTrunc idScrub tableEdgeW stateW sitesW (by decide) (by decide)
      (by decide) (by decide)⟩

/-- Counterexample to C1 as stated: the requested service has a table
entry with one site (IP 2.2.2.2), yet ServeDNS answers with this
cluster's own IP 1.2.3.4 — the markerless local hit takes precedence
over the table, so the answer IP is not the distance minimiser of the
table entry. -/
theorem redirect_shadowed_counterexample :
    tableLookup shadowEdgeW.table (trimTrailingDot stateW.req.qname)
      = ([Site.mk [2, 2, 2, 2] ⟨0, 0⟩], true)
    ∧ serveDNS dist0 .random 0 false [] false [] okOracle idTrunc idScrub
        shadowEdgeW stateW
      = some (.written (writeAuthoritativeResponse stateW shadowEdgeW.ip) 0,
          [])
    ∧ rrAddr ((writeAuthoritativeResponse stateW shadowEdgeW.ip).answer.getD
        0 (RR.A "" 0 [])) = [1, 2, 3, 4]
    ∧ findClosestToPoint dist0 [Site.mk [2, 2, 2, 2] ⟨0, 0⟩]
        (stateW.req.loc.getD shadowEdgeW.geoCoords) = [2, 2, 2, 2]
    ∧ ([1, 2, 3, 4] : IP) ≠ [2, 2, 2, 2] :=
  ⟨by decide, by decide, by decide, by decide, by decide⟩
